import Mathlib

/-!
Shallow embedding of `src/balancer.ts` (superfly/load-balancer).

Conventions of the embedding:
* JS numbers holding HTTP status codes and request counts are `Nat`;
  timestamps (`Date.now()` milliseconds) are `Nat`, and time differences are
  computed in `Int` (JS subtraction can go negative).
* JS floating-point health scores are modelled as `ℚ`; every score the code
  produces is of the form `1 - w * (e / n)` with small rational `w`, and all
  constants the tests compare against (`0.5`, `0.6`, `0.85`, `0.95`) are exact
  in `ℚ` just as they are reached exactly by the double-precision evaluation.
* A JS sparse array slot (`Array(10)` holes, value `undefined`) is modelled as
  `none : Option Nat`; a recorded status `s` is `some s`.
* The per-backend transport capability (`backend.proxy`), `Math.random()` and
  `Date.now()` are supplied by an `Env` of oracles indexed by the loop
  iteration number; a capability that throws/rejects yields
  `TransportResult.thrown`.
* The JS backends array holds object references mutated in place; we model it
  as a list and thread positions (`List.enum` indices) through the selector so
  that the dispatch loop updates exactly the chosen record (`List.set`).
-/

/- Batteries marks the `Rat` field operations irreducible; the concrete runs
below are settled by `decide`, which needs them to unfold. -/
attribute [local semireducible] Rat.mul Rat.sub Rat.add Rat.inv

/-- One backend record (interface `Backend`, balancer.ts lines 87-95).
The `proxy` capability lives in `Env`, keyed by `host` and iteration. -/
structure Backend where
  host : String
  requestCount : Nat
  statuses : List (Option Nat)
  lastError : Nat
  healthScore : ℚ
  errorCount : Nat
deriving DecidableEq, Repr

/-- A response as far as the balancer inspects it: numeric status and body. -/
structure Response where
  status : Nat
  body : String
deriving DecidableEq, Repr

/-- A request as far as the balancer inspects it: its method string. -/
structure Request where
  method : String
deriving DecidableEq, Repr

/-- `const proxyError = new Response("couldn't connect to origin", { status: 502 })`
(balancer.ts line 6). -/
def proxyError : Response :=
  { status := 502, body := "couldn't connect to origin" }

/-- Backend construction from a host string (balancer.ts lines 25-33).
`statuses: Array(10)` is a JS sparse array of length 10 — ten holes —
hence `List.replicate 10 none`, not the empty list. -/
def mkBackend (h : String) : Backend :=
  { host := h
    requestCount := 0
    statuses := List.replicate 10 none
    lastError := 0
    healthScore := 0
    errorCount := 0 }

/-- The error test `status >= 500 && status < 600` from the scoring loop
(balancer.ts line 113); a hole (`undefined`) compares false. -/
def isErrorStatus (s : Option Nat) : Bool :=
  match s with
  | some v => decide (500 ≤ v) && decide (v < 600)
  | none => false

/-- The time-weight chain of `score` (balancer.ts lines 102-107).
The first JS clause `(backend.lastError === 0 && 0)` is falsy whichever way
the test goes (`false` or the number `0`), so the `||` chain always falls
through to the elapsed-time buckets: the weight depends only on
`errorBasis - lastError`, even when `lastError === 0`. -/
def timeWeight (lastError : Nat) (errorBasis : Int) : ℚ :=
  let timeSinceError : Int := errorBasis - lastError
  if timeSinceError < 1000 then 1
  else if timeSinceError < 3000 then 4/5
  else if timeSinceError < 5000 then 3/10
  else if timeSinceError < 10000 then 1/10
  else 0

/-- `score(backend, errorBasis)` (balancer.ts lines 97-119).  The basis is an
explicit parameter: JS defaults it to `Date.now()` only when the argument is
not a number, and the dispatch loop model passes the env's clock. -/
def score (backend : Backend) (errorBasis : Int) : ℚ :=
  let tw := timeWeight backend.lastError errorBasis
  if backend.statuses.length = 0 then 0
  else
    let requests : ℚ := backend.statuses.length
    let errors : ℚ := backend.statuses.countP isErrorStatus
    1 - tw * (errors / requests)

/-- `canRetry(req, resp)` (balancer.ts lines 120-124). -/
def canRetry (req : Request) (resp : Response) : Bool :=
  if resp.status < 500 then false
  else if req.method = "GET" || req.method = "HEAD" then true
  else false

/-- Recording a status into the bounded history (balancer.ts lines 64-68):
append while fewer than 10 entries, else overwrite the slot at
`requestCount % statuses.length` (the request count has already been
incremented for this attempt). -/
def record (b : Backend) (status : Nat) : Backend :=
  if b.statuses.length < 10 then
    { b with statuses := b.statuses ++ [some status] }
  else
    { b with statuses := b.statuses.set (b.requestCount % b.statuses.length) (some status) }

/-- Result of invoking a backend's transport capability: a response, or a
thrown/rejected promise (balancer.ts lines 59-63). -/
inductive TransportResult where
  | ok (resp : Response)
  | thrown
deriving DecidableEq, Repr

/-- The external collaborators of one dispatch call, indexed by loop
iteration: the per-backend transport (`backend.proxy`, keyed by host),
`Math.random()` (`rand iter = true` picks `backendA`), and `Date.now()`. -/
structure Env where
  transport : Nat → String → TransportResult
  rand : Nat → Bool
  now : Nat → Nat

/-- Lines 55-78 of the dispatch loop, for the chosen backend: increment
`requestCount`, invoke the transport (a thrown call is replaced by
`proxyError`), record the status, on a 5xx set `lastError` and decide retry
via `canRetry` (`resp = null` models the retry), recompute `healthScore`.
Returns the updated backend and `some resp` to return to the caller, or
`none` when the loop must retry. -/
def processBackend (now : Nat) (req : Request) (b : Backend) (tr : TransportResult) :
    Backend × Option Response :=
  let b1 : Backend := { b with requestCount := b.requestCount + 1 }
  let resp : Response :=
    match tr with
    | .ok r => r
    | .thrown => proxyError
  let b2 := record b1 resp.status
  if 500 ≤ resp.status ∧ resp.status < 600 then
    let b3 : Backend := { b2 with lastError := now }
    ({ b3 with healthScore := score b3 now },
     if canRetry req resp then none else some resp)
  else
    ({ b2 with healthScore := score b2 now }, some resp)

/-- The scan of `chooseBackends` (balancer.ts lines 129-159) over the
remaining list, carrying the two running winners.  Elements are paired with
their position in the backends array so the dispatch loop can write the
mutated record back to the exact slot the JS code mutates in place. -/
def chooseLoop (att : List String) :
    List (Nat × Backend) → Option (Nat × Backend) → Option (Nat × Backend) →
    Option (Nat × Backend) × Option (Nat × Backend)
  | [], a, b => (a, b)
  | x :: rest, a, b =>
    if x.2.host ∈ att then chooseLoop att rest a b
    else
      match a with
      | none => chooseLoop att rest (some x) b
      | some A =>
        match b with
        | none => chooseLoop att rest (some A) (some x)
        | some B =>
          if x.2.healthScore > A.2.healthScore ∨
             (x.2.healthScore = A.2.healthScore ∧ x.2.requestCount < A.2.requestCount) then
            chooseLoop att rest (some x) (some B)
          else if x.2.requestCount ≤ B.2.requestCount ∨
             (x.2.healthScore = B.2.healthScore ∧ x.2.requestCount < B.2.requestCount) then
            chooseLoop att rest (some A) (some x)
          else chooseLoop att rest (some A) (some B)

/-- `chooseBackends(backends, attempted)` (balancer.ts lines 126-162), with
positions. -/
def chooseBackendsIdx (backends : List Backend) (att : List String) :
    Option (Nat × Backend) × Option (Nat × Backend) :=
  chooseLoop att backends.enum none none

/-- `chooseBackends` as the tests observe it: just the two backend values. -/
def chooseBackends (backends : List Backend) (att : List String) :
    Option Backend × Option Backend :=
  ((chooseBackendsIdx backends att).1.map Prod.snd,
   (chooseBackendsIdx backends att).2.map Prod.snd)

/-- `attempted[backend.host] = backend` (balancer.ts line 56): object keys
are a set of hosts. -/
def addAttempted (att : List String) (h : String) : List String :=
  if h ∈ att then att else att ++ [h]

/-- `Math.floor(Math.random() * 2) == 0 ? backendA : backendB`
(balancer.ts lines 48-53): with no second candidate the first is used. -/
def pickChosen (r : Bool) (p : Nat × Backend) : Option (Nat × Backend) → Nat × Backend
  | none => p
  | some q => if r then p else q

/-- One outcome of the `while` body: either the dispatch call finishes with a
response, or it loops back to selection.  `invoked` reports the host whose
transport was called during this step, if any. -/
inductive Step where
  | done (resp : Response) (backends : List Backend) (invoked : Option String)
  | retry (backends : List Backend) (attempted : List String) (invoked : String)
deriving DecidableEq, Repr

/-- One iteration of `fetchBalancer`'s `while` loop (balancer.ts lines
41-81), including the loop guard: with the guard false the function falls
through to `return proxyError` (line 83); with no candidate it returns the
fixed `"No backend available"` 502 (line 46). -/
def loopBody (env : Env) (req : Request) (iter : Nat)
    (backends : List Backend) (attempted : List String) : Step :=
  if attempted.length < backends.length then
    match chooseBackendsIdx backends attempted with
    | (none, _) => .done { status := 502, body := "No backend available" } backends none
    | (some p, ob) =>
      let c := pickChosen (env.rand iter) p ob
      let att2 := addAttempted attempted c.2.host
      let pr := processBackend (env.now iter) req c.2 (env.transport iter c.2.host)
      let backends2 := backends.set c.1 pr.1
      match pr.2 with
      | some resp => .done resp backends2 (some c.2.host)
      | none => .retry backends2 att2 c.2.host
  else .done proxyError backends none

/-- The `while` loop, written with explicit fuel; `none` means the fuel ran
out (shown below never to happen with fuel `backends.length + 1`).  The
result carries the response, the final backend records, and the hosts whose
transports were invoked, in order. -/
def dispatchLoop (env : Env) (req : Request) :
    Nat → Nat → List Backend → List String → List String →
    Option (Response × List Backend × List String)
  | 0, _, _, _, _ => none
  | fuel + 1, iter, backends, attempted, invoked =>
    match loopBody env req iter backends attempted with
    | .done resp bs inv => some (resp, bs, invoked ++ inv.toList)
    | .retry bs att h => dispatchLoop env req fuel (iter + 1) bs att (invoked ++ [h])

/-- One call of the returned `fetchBalancer` closure (balancer.ts lines
36-84), starting from an empty attempted set. -/
def fetchBalancer (env : Env) (req : Request) (backends : List Backend) :
    Option (Response × List Backend × List String) :=
  dispatchLoop env req (backends.length + 1) 0 backends [] []

/-- `n` sequential dispatch calls against the same pool, threading the
mutated backend records from call to call. -/
def runDispatches (env : Env) (req : Request) : Nat → List Backend → List Backend
  | 0, bs => bs
  | k + 1, bs =>
    match fetchBalancer env req bs with
    | some (_, bs2, _) => runDispatches env req k bs2
    | none => bs

/-- The all-success history of the test helper `healthy()`
(balancer.spec.ts lines 8-18). -/
def histSuccess : List (Option Nat) := [some 200, some 200, some 200]

/-- The half-error history of the test helper `unhealthy()`
(balancer.spec.ts lines 19-24). -/
def histMixed : List (Option Nat) :=
  [some 200, some 200, some 200, some 500, some 500, some 500]

/-- A backend as built by the test helper `healthy()`. -/
def healthyB (h : String) : Backend :=
  { host := h, requestCount := 0, statuses := histSuccess,
    lastError := 0, healthScore := 1, errorCount := 0 }

/-- A backend as built by the test helper `unhealthy()`. -/
def unhealthyB (h : String) : Backend :=
  { host := h, requestCount := 0, statuses := histMixed,
    lastError := 0, healthScore := 1/2, errorCount := 0 }

/-- An environment whose every transport call succeeds with a 200 "hi"
response (the tests' `fakeFetch`), at time 0, randomness always picking
`backendA`. -/
def env200 : Env :=
  { transport := fun _ _ => .ok { status := 200, body := "hi" }
    rand := fun _ => true
    now := fun _ => 0 }

/-- An environment whose every transport call returns a 500 response. -/
def env500 : Env :=
  { transport := fun _ _ => .ok { status := 500, body := "err" }
    rand := fun _ => true
    now := fun _ => 0 }

/-- A GET request. -/
def reqGET : Request := { method := "GET" }

/-! ## Scorer lemmas -/

/-- The weight chain depends only on `errorBasis - lastError`. -/
theorem timeWeight_eval (L : Nat) (basis : Int) :
    timeWeight L basis =
      if basis - L < 1000 then 1
      else if basis - L < 3000 then 4/5
      else if basis - L < 5000 then 3/10
      else if basis - L < 10000 then 1/10
      else 0 := rfl

/-- Unfolding of `score` for a non-empty history. -/
theorem score_eval (b : Backend) (basis : Int) (h : b.statuses.length ≠ 0) :
    score b basis =
      1 - timeWeight b.lastError basis *
        ((b.statuses.countP isErrorStatus : ℚ) / (b.statuses.length : ℚ)) := by
  unfold score
  simp [h]

/-! ## C5 -/

/-- C5: for a backend with `lastErrorAt ≠ 0` and a 6-entry history with
exactly 3 entries in `[500,600)`, the score at basis offsets 999, 2000,
4000, 9000 ms after `lastError` is exactly 1/2, 3/5, 17/20, 19/20
(that is, 0.5, 0.6, 0.85, 0.95); and for any backend with `lastErrorAt ≠ 0`
and non-empty history, at any offset of 10000 ms or more the score is
exactly 1 regardless of the error fraction. -/
theorem score_decay_buckets :
    (∀ b : Backend, b.lastError ≠ 0 → b.statuses.length = 6 →
        b.statuses.countP isErrorStatus = 3 →
        score b ((b.lastError : Int) + 999) = 1/2 ∧
        score b ((b.lastError : Int) + 2000) = 3/5 ∧
        score b ((b.lastError : Int) + 4000) = 17/20 ∧
        score b ((b.lastError : Int) + 9000) = 19/20) ∧
    (∀ (b : Backend) (off : Int), b.lastError ≠ 0 → b.statuses ≠ [] →
        10000 ≤ off → score b ((b.lastError : Int) + off) = 1) := by
  constructor
  · intro b _ hlen hcnt
    have hne : b.statuses.length ≠ 0 := by omega
    refine ⟨?_, ?_, ?_, ?_⟩ <;>
      · rw [score_eval b _ hne, timeWeight_eval, hlen, hcnt]
        norm_num
  · intro b off _ hne hoff
    have hlen : b.statuses.length ≠ 0 := by
      simpa [List.length_eq_zero] using hne
    rw [score_eval b _ hlen, timeWeight_eval]
    have h1 : ¬ ((b.lastError : Int) + off - b.lastError < 1000) := by omega
    have h2 : ¬ ((b.lastError : Int) + off - b.lastError < 3000) := by omega
    have h3 : ¬ ((b.lastError : Int) + off - b.lastError < 5000) := by omega
    have h4 : ¬ ((b.lastError : Int) + off - b.lastError < 10000) := by omega
    rw [if_neg h1, if_neg h2, if_neg h3, if_neg h4]
    ring

/-- Witness for C5 at the `unhealthy()` test backend, whose `lastError` is
moved to 5. -/
theorem score_decay_buckets_witness :
    (score { unhealthyB "u" with lastError := 5 } (5 + 999) = 1/2 ∧
     score { unhealthyB "u" with lastError := 5 } (5 + 2000) = 3/5 ∧
     score { unhealthyB "u" with lastError := 5 } (5 + 4000) = 17/20 ∧
     score { unhealthyB "u" with lastError := 5 } (5 + 9000) = 19/20) ∧
    score { unhealthyB "u" with lastError := 5 } (5 + 10000) = 1 := by
  refine ⟨score_decay_buckets.1 _ (by decide) (by decide) (by decide), ?_⟩
  exact score_decay_buckets.2 _ 10000 (by decide) (by decide) (by decide)

/-! ## C6 -/

/-- C6 counterexample: the `unhealthy()` test backend has `lastError = 0` and
a non-empty history, yet at basis 0 the time weight is 1 (not 0) and the
score is 1/2 (not 1): the first clause of the JS weight chain,
`(backend.lastError === 0 && 0)`, is falsy either way, so the elapsed-time
buckets apply with elapsed = 0. -/
theorem lastError_zero_counterexample :
    (unhealthyB "u").lastError = 0 ∧ (unhealthyB "u").statuses ≠ [] ∧
    timeWeight (unhealthyB "u").lastError 0 = 1 ∧
    score (unhealthyB "u") 0 = 1/2 ∧
    ¬ (timeWeight (unhealthyB "u").lastError 0 = 0 ∧ score (unhealthyB "u") 0 = 1) := by
  decide

/-- C6 amended: with `lastErrorAt = 0` the weight chain falls through to the
elapsed-time buckets with `elapsed = nowBasis - 0 = nowBasis`, so the time
weight is 0 — and hence the score of a non-empty history is exactly 1
regardless of how many entries lie in `[500,600)` — exactly when
`nowBasis ≥ 10000` (true in particular of any realistic clock value). -/
theorem lastError_zero_large_basis (b : Backend) (basis : Int)
    (h0 : b.lastError = 0) (hne : b.statuses ≠ []) (hb : 10000 ≤ basis) :
    timeWeight b.lastError basis = 0 ∧ score b basis = 1 := by
  have hlen : b.statuses.length ≠ 0 := by
    simpa [List.length_eq_zero] using hne
  have htw : timeWeight b.lastError basis = 0 := by
    rw [timeWeight_eval, h0]
    have h1 : ¬ (basis - ((0 : Nat) : Int) < 1000) := by omega
    have h2 : ¬ (basis - ((0 : Nat) : Int) < 3000) := by omega
    have h3 : ¬ (basis - ((0 : Nat) : Int) < 5000) := by omega
    have h4 : ¬ (basis - ((0 : Nat) : Int) < 10000) := by omega
    rw [if_neg h1, if_neg h2, if_neg h3, if_neg h4]
  refine ⟨htw, ?_⟩
  rw [score_eval b _ hlen, htw]
  ring

/-- Witness for the amended C6 at the `unhealthy()` backend and basis 10000. -/
theorem lastError_zero_large_basis_witness :
    timeWeight (unhealthyB "u").lastError 10000 = 0 ∧ score (unhealthyB "u") 10000 = 1 :=
  lastError_zero_large_basis (unhealthyB "u") 10000 (by decide) (by decide) (by decide)

/-! ## C7 -/

/-- C7 counterexample: a backend freshly constructed by `balancer` from a
host string does not have an empty status history — `Array(10)` is a sparse
array of length 10 — and the scorer applied to it returns 1, not 0. -/
theorem fresh_backend_score_counterexample :
    (mkBackend "h").statuses.length = 10 ∧
    score (mkBackend "h") 0 = 1 ∧ ¬ score (mkBackend "h") 0 = 0 := by
  decide

/-- C7 amended: applying the scorer to a backend whose status history is
empty returns 0 for every `nowBasis`; but a backend freshly constructed by
`balancer` from a host string has a history of length 10 (ten holes, none
of them an error status), so the scorer on it yields 1 for every basis —
it starts unfavored only through its `healthScore` field, which the
constructor initializes to 0 directly. -/
theorem score_empty_and_fresh :
    (∀ (b : Backend) (basis : Int), b.statuses = [] → score b basis = 0) ∧
    (∀ (h : String) (basis : Int),
        score (mkBackend h) basis = 1 ∧ (mkBackend h).healthScore = 0) := by
  constructor
  · intro b basis h
    unfold score
    simp [h]
  · intro h basis
    refine ⟨?_, rfl⟩
    have hlen : (mkBackend h).statuses.length ≠ 0 := by
      show (List.replicate 10 (none : Option Nat)).length ≠ 0
      decide
    rw [score_eval _ _ hlen]
    have hcnt : (mkBackend h).statuses.countP isErrorStatus = 0 := by
      show (List.replicate 10 (none : Option Nat)).countP isErrorStatus = 0
      decide
    rw [hcnt]
    push_cast
    ring

/-- Witness for C7 at a concrete empty-history backend and a fresh backend. -/
theorem score_empty_and_fresh_witness :
    score { host := "e", requestCount := 0, statuses := [], lastError := 0,
            healthScore := 0, errorCount := 0 } 5 = 0 ∧
    (score (mkBackend "f") 7 = 1 ∧ (mkBackend "f").healthScore = 0) :=
  ⟨score_empty_and_fresh.1 _ 5 rfl, score_empty_and_fresh.2 "f" 7⟩

/-! ## Selector lemmas

One step lemma per branch of the `chooseBackends` scan, then the structural
lemmas used by the claims about the selector. -/

theorem chooseLoop_skip {att : List String} {x : Nat × Backend}
    {l : List (Nat × Backend)} {a b : Option (Nat × Backend)}
    (hx : x.2.host ∈ att) :
    chooseLoop att (x :: l) a b = chooseLoop att l a b := by
  simp [chooseLoop, hx]

theorem chooseLoop_setA {att : List String} {x : Nat × Backend}
    {l : List (Nat × Backend)} {b : Option (Nat × Backend)}
    (hx : x.2.host ∉ att) :
    chooseLoop att (x :: l) none b = chooseLoop att l (some x) b := by
  simp [chooseLoop, hx]

theorem chooseLoop_setB {att : List String} {x A : Nat × Backend}
    {l : List (Nat × Backend)} (hx : x.2.host ∉ att) :
    chooseLoop att (x :: l) (some A) none = chooseLoop att l (some A) (some x) := by
  simp [chooseLoop, hx]

theorem chooseLoop_replA {att : List String} {x A B : Nat × Backend}
    {l : List (Nat × Backend)} (hx : x.2.host ∉ att)
    (h1 : x.2.healthScore > A.2.healthScore ∨
      (x.2.healthScore = A.2.healthScore ∧ x.2.requestCount < A.2.requestCount)) :
    chooseLoop att (x :: l) (some A) (some B) = chooseLoop att l (some x) (some B) := by
  simp [chooseLoop, hx, h1]

theorem chooseLoop_replB {att : List String} {x A B : Nat × Backend}
    {l : List (Nat × Backend)} (hx : x.2.host ∉ att)
    (h1 : ¬ (x.2.healthScore > A.2.healthScore ∨
      (x.2.healthScore = A.2.healthScore ∧ x.2.requestCount < A.2.requestCount)))
    (h2 : x.2.requestCount ≤ B.2.requestCount ∨
      (x.2.healthScore = B.2.healthScore ∧ x.2.requestCount < B.2.requestCount)) :
    chooseLoop att (x :: l) (some A) (some B) = chooseLoop att l (some A) (some x) := by
  simp [chooseLoop, hx, h1, h2]

theorem chooseLoop_keep {att : List String} {x A B : Nat × Backend}
    {l : List (Nat × Backend)} (hx : x.2.host ∉ att)
    (h1 : ¬ (x.2.healthScore > A.2.healthScore ∨
      (x.2.healthScore = A.2.healthScore ∧ x.2.requestCount < A.2.requestCount)))
    (h2 : ¬ (x.2.requestCount ≤ B.2.requestCount ∨
      (x.2.healthScore = B.2.healthScore ∧ x.2.requestCount < B.2.requestCount))) :
    chooseLoop att (x :: l) (some A) (some B) = chooseLoop att l (some A) (some B) := by
  simp [chooseLoop, hx, h1, h2]

/-- Any property holding of the incoming slots and of every eligible scanned
element holds of the outgoing slots: the scan only ever installs scanned
eligible elements into a slot. -/
theorem chooseLoop_preserve (P : Nat × Backend → Prop) (att : List String) :
    ∀ (l : List (Nat × Backend)) (a b : Option (Nat × Backend)),
      (∀ p ∈ l, p.2.host ∉ att → P p) →
      (∀ p, a = some p → P p) → (∀ q, b = some q → P q) →
      (∀ p, (chooseLoop att l a b).1 = some p → P p) ∧
      (∀ q, (chooseLoop att l a b).2 = some q → P q) := by
  intro l
  induction l with
  | nil =>
    intro a b _ ha hb
    exact ⟨ha, hb⟩
  | cons x t ih =>
    intro a b hl ha hb
    have hl' : ∀ p ∈ t, p.2.host ∉ att → P p :=
      fun p hp => hl p (List.mem_cons_of_mem _ hp)
    by_cases hx : x.2.host ∈ att
    · rw [chooseLoop_skip hx]
      exact ih a b hl' ha hb
    · have hPx : P x := hl x (List.mem_cons_self _ _) hx
      have hsx : ∀ p, some x = some p → P p :=
        fun p hp => Option.some.inj hp ▸ hPx
      match a, b with
      | none, b =>
        rw [chooseLoop_setA hx]
        exact ih (some x) b hl' hsx hb
      | some A, none =>
        rw [chooseLoop_setB hx]
        exact ih (some A) (some x) hl' ha hsx
      | some A, some B =>
        by_cases h1 : x.2.healthScore > A.2.healthScore ∨
            (x.2.healthScore = A.2.healthScore ∧ x.2.requestCount < A.2.requestCount)
        · rw [chooseLoop_replA hx h1]
          exact ih (some x) (some B) hl' hsx hb
        · by_cases h2 : x.2.requestCount ≤ B.2.requestCount ∨
              (x.2.healthScore = B.2.healthScore ∧ x.2.requestCount < B.2.requestCount)
          · rw [chooseLoop_replB hx h1 h2]
            exact ih (some A) (some x) hl' ha hsx
          · rw [chooseLoop_keep hx h1 h2]
            exact ih (some A) (some B) hl' ha hb

/-- The scan over a concatenation is the scan over the second part started
from the state the first part produces. -/
theorem chooseLoop_append (att : List String) (l1 l2 : List (Nat × Backend)) :
    ∀ a b, chooseLoop att (l1 ++ l2) a b =
      chooseLoop att l2 (chooseLoop att l1 a b).1 (chooseLoop att l1 a b).2 := by
  induction l1 with
  | nil =>
    intro a b
    simp [chooseLoop]
  | cons x t ih =>
    intro a b
    rw [List.cons_append]
    by_cases hx : x.2.host ∈ att
    · rw [chooseLoop_skip hx, chooseLoop_skip hx, ih]
    · match a, b with
      | none, b => rw [chooseLoop_setA hx, chooseLoop_setA hx, ih]
      | some A, none => rw [chooseLoop_setB hx, chooseLoop_setB hx, ih]
      | some A, some B =>
        by_cases h1 : x.2.healthScore > A.2.healthScore ∨
            (x.2.healthScore = A.2.healthScore ∧ x.2.requestCount < A.2.requestCount)
        · rw [chooseLoop_replA hx h1, chooseLoop_replA hx h1, ih]
        · by_cases h2 : x.2.requestCount ≤ B.2.requestCount ∨
              (x.2.healthScore = B.2.healthScore ∧ x.2.requestCount < B.2.requestCount)
          · rw [chooseLoop_replB hx h1 h2, chooseLoop_replB hx h1 h2, ih]
          · rw [chooseLoop_keep hx h1 h2, chooseLoop_keep hx h1 h2, ih]

/-- The selector never installs an attempted host in either slot. -/
theorem chooseBackendsIdx_not_attempted (bs : List Backend) (att : List String) :
    (∀ p, (chooseBackendsIdx bs att).1 = some p → p.2.host ∉ att) ∧
    (∀ q, (chooseBackendsIdx bs att).2 = some q → q.2.host ∉ att) :=
  chooseLoop_preserve (fun p => p.2.host ∉ att) att bs.enum none none
    (fun _ _ h => h) (fun _ h => nomatch h) (fun _ h => nomatch h)

/-- Both selector slots come from the enumerated pool. -/
theorem chooseBackendsIdx_mem (bs : List Backend) (att : List String) :
    (∀ p, (chooseBackendsIdx bs att).1 = some p → p ∈ bs.enum) ∧
    (∀ q, (chooseBackendsIdx bs att).2 = some q → q ∈ bs.enum) :=
  chooseLoop_preserve (· ∈ bs.enum) att bs.enum none none
    (fun _ hp _ => hp) (fun _ h => nomatch h) (fun _ h => nomatch h)

/-! ## Enumeration lemmas

`backends.enum` pairs each record with its array position; these small
lemmas recover list facts from the enumerated form. -/

theorem mem_enumFrom_facts (l : List Backend) :
    ∀ (n : Nat) (p : Nat × Backend), p ∈ List.enumFrom n l →
      n ≤ p.1 ∧ l[p.1 - n]? = some p.2 ∧ p.2 ∈ l := by
  induction l with
  | nil => intro n p hp; exact absurd hp (List.not_mem_nil p)
  | cons x t ih =>
    intro n p hp
    rcases List.mem_cons.1 hp with h | h
    · subst h
      refine ⟨Nat.le_refl _, ?_, List.mem_cons_self _ _⟩
      simp
    · obtain ⟨h1, h2, h3⟩ := ih (n + 1) p h
      refine ⟨by omega, ?_, List.mem_cons_of_mem _ h3⟩
      have hk : p.1 - n = (p.1 - (n + 1)) + 1 := by omega
      rw [hk]
      simpa using h2

theorem enumFrom_fst_nodup (l : List Backend) :
    ∀ n, ((List.enumFrom n l).map Prod.fst).Nodup := by
  induction l with
  | nil => intro n; simp
  | cons x t ih =>
    intro n
    refine List.nodup_cons.2 ⟨?_, ih (n + 1)⟩
    intro hmem
    obtain ⟨p, hp, hfst⟩ := List.mem_map.1 hmem
    have := (mem_enumFrom_facts t (n + 1) p hp).1
    omega

theorem enumFrom_filter_snd (pr : Backend → Bool) (l : List Backend) :
    ∀ n, ((List.enumFrom n l).filter (fun p => pr p.2)).map Prod.snd = l.filter pr := by
  induction l with
  | nil => intro n; rfl
  | cons x t ih =>
    intro n
    show (((n, x) :: List.enumFrom (n + 1) t).filter (fun p => pr p.2)).map Prod.snd = _
    rw [List.filter_cons, List.filter_cons]
    by_cases hx : pr x
    · simp only [hx]
      simp [ih (n + 1)]
    · simp only [Bool.not_eq_true] at hx
      simp [hx, ih (n + 1)]

/-- Distinct positions in a pairwise-distinct list hold distinct values. -/
theorem pairwise_ne_of_getElem (bs : List Backend) (hpw : bs.Pairwise (· ≠ ·))
    {i j : Nat} {x y : Backend} (hi : bs[i]? = some x) (hj : bs[j]? = some y)
    (hij : i ≠ j) : x ≠ y := by
  obtain ⟨hi', hx⟩ := List.getElem?_eq_some.1 hi
  obtain ⟨hj', hy⟩ := List.getElem?_eq_some.1 hj
  rcases Nat.lt_or_ge i j with h | h
  · have := List.pairwise_iff_getElem.1 hpw i j hi' hj' h
    rw [hx, hy] at this
    exact this
  · have hlt : j < i := by omega
    have := List.pairwise_iff_getElem.1 hpw j i hj' hi' hlt
    rw [hx, hy] at this
    exact fun hxy => this (hxy ▸ rfl)

/-- The two slots of the scan always hold elements taken from distinct
positions, provided the scanned positions are distinct from each other and
from whatever the slots already hold. -/
theorem chooseLoop_slots_distinct (att : List String) :
    ∀ (l : List (Nat × Backend)) (a b : Option (Nat × Backend)),
      (l.map Prod.fst).Nodup →
      (∀ p, a = some p → p.1 ∉ l.map Prod.fst) →
      (∀ q, b = some q → q.1 ∉ l.map Prod.fst) →
      (∀ p q, a = some p → b = some q → p.1 ≠ q.1) →
      ∀ p q, (chooseLoop att l a b).1 = some p →
        (chooseLoop att l a b).2 = some q → p.1 ≠ q.1 := by
  intro l
  induction l with
  | nil =>
    intro a b _ _ _ hab p q hp hq
    exact hab p q hp hq
  | cons x t ih =>
    intro a b hnd ha hb hab
    have hx_t : x.1 ∉ t.map Prod.fst := (List.nodup_cons.1 hnd).1
    have hnd' : (t.map Prod.fst).Nodup := (List.nodup_cons.1 hnd).2
    have ha' : ∀ p, a = some p → p.1 ∉ t.map Prod.fst :=
      fun p hp hm => ha p hp (List.mem_cons_of_mem _ hm)
    have hb' : ∀ q, b = some q → q.1 ∉ t.map Prod.fst :=
      fun q hq hm => hb q hq (List.mem_cons_of_mem _ hm)
    have hax : ∀ p, a = some p → p.1 ≠ x.1 :=
      fun p hp he => ha p hp (he ▸ List.mem_cons_self _ _)
    have hbx : ∀ q, b = some q → q.1 ≠ x.1 :=
      fun q hq he => hb q hq (he ▸ List.mem_cons_self _ _)
    have hxs : ∀ p, some x = some p → p.1 ∉ t.map Prod.fst :=
      fun p hp => Option.some.inj hp ▸ hx_t
    by_cases hx : x.2.host ∈ att
    · rw [chooseLoop_skip hx]
      exact ih a b hnd' ha' hb' hab
    · match a, b with
      | none, none =>
        rw [chooseLoop_setA hx]
        exact ih (some x) none hnd' hxs (fun q hq => nomatch hq)
          (fun p q _ hq => nomatch hq)
      | none, some B =>
        rw [chooseLoop_setA hx]
        refine ih (some x) (some B) hnd' hxs hb' ?_
        intro p q hp hq
        cases hp; cases hq
        exact fun he => hbx B rfl he.symm
      | some A, none =>
        rw [chooseLoop_setB hx]
        refine ih (some A) (some x) hnd' ha' hxs ?_
        intro p q hp hq
        cases hp; cases hq
        exact hax A rfl
      | some A, some B =>
        by_cases h1 : x.2.healthScore > A.2.healthScore ∨
            (x.2.healthScore = A.2.healthScore ∧ x.2.requestCount < A.2.requestCount)
        · rw [chooseLoop_replA hx h1]
          refine ih (some x) (some B) hnd' hxs hb' ?_
          intro p q hp hq
          cases hp; cases hq
          exact fun he => hbx B rfl he.symm
        · by_cases h2 : x.2.requestCount ≤ B.2.requestCount ∨
              (x.2.healthScore = B.2.healthScore ∧ x.2.requestCount < B.2.requestCount)
          · rw [chooseLoop_replB hx h1 h2]
            refine ih (some A) (some x) hnd' ha' hxs ?_
            intro p q hp hq
            cases hp; cases hq
            exact hax A rfl
          · rw [chooseLoop_keep hx h1 h2]
            exact ih (some A) (some B) hnd' ha' hb' hab

/-- With every element attempted, the scan leaves the slots untouched. -/
theorem chooseLoop_all_skip (att : List String) :
    ∀ (l : List (Nat × Backend)) (a b : Option (Nat × Backend)),
      (∀ p ∈ l, p.2.host ∈ att) → chooseLoop att l a b = (a, b) := by
  intro l
  induction l with
  | nil => intro a b _; rfl
  | cons x t ih =>
    intro a b hall
    rw [chooseLoop_skip (hall x (List.mem_cons_self _ _))]
    exact ih a b (fun p hp => hall p (List.mem_cons_of_mem _ hp))

/-- With exactly one eligible element, the scan returns it as the first slot
and leaves the second empty. -/
theorem chooseLoop_singleton (att : List String) :
    ∀ (l : List (Nat × Backend)) (x : Nat × Backend),
      l.filter (fun p => decide (p.2.host ∉ att)) = [x] →
      chooseLoop att l none none = (some x, none) := by
  intro l
  induction l with
  | nil => intro x hx; exact absurd hx (by simp)
  | cons y t ih =>
    intro x hx
    rw [List.filter_cons] at hx
    by_cases hy : y.2.host ∈ att
    · rw [chooseLoop_skip hy]
      refine ih x ?_
      rwa [if_neg (by simp [hy])] at hx
    · rw [if_pos (decide_eq_true hy)] at hx
      obtain ⟨hyx, ht⟩ := List.cons_eq_cons.1 hx
      subst hyx
      rw [chooseLoop_setA hy]
      refine chooseLoop_all_skip att t (some y) none ?_
      intro p hp
      by_contra hpe
      have : p ∈ t.filter (fun p => decide (p.2.host ∉ att)) :=
        List.mem_filter.2 ⟨hp, decide_eq_true hpe⟩
      rw [ht] at this
      exact absurd this (List.not_mem_nil p)

/-- Once both slots are filled they stay filled. -/
theorem chooseLoop_both_stay (att : List String) :
    ∀ (l : List (Nat × Backend)) (A B : Nat × Backend),
      ∃ p q, chooseLoop att l (some A) (some B) = (some p, some q) := by
  intro l
  induction l with
  | nil => intro A B; exact ⟨A, B, rfl⟩
  | cons x t ih =>
    intro A B
    by_cases hx : x.2.host ∈ att
    · rw [chooseLoop_skip hx]; exact ih A B
    · by_cases h1 : x.2.healthScore > A.2.healthScore ∨
          (x.2.healthScore = A.2.healthScore ∧ x.2.requestCount < A.2.requestCount)
      · rw [chooseLoop_replA hx h1]; exact ih x B
      · by_cases h2 : x.2.requestCount ≤ B.2.requestCount ∨
            (x.2.healthScore = B.2.healthScore ∧ x.2.requestCount < B.2.requestCount)
        · rw [chooseLoop_replB hx h1 h2]; exact ih A x
        · rw [chooseLoop_keep hx h1 h2]; exact ih A B

/-- With the first slot filled and at least one eligible element remaining,
both slots end up filled. -/
theorem chooseLoop_second_fills (att : List String) :
    ∀ (l : List (Nat × Backend)) (A : Nat × Backend),
      1 ≤ (l.filter (fun p => decide (p.2.host ∉ att))).length →
      ∃ p q, chooseLoop att l (some A) none = (some p, some q) := by
  intro l
  induction l with
  | nil => intro A h; simp at h
  | cons y t ih =>
    intro A h
    rw [List.filter_cons] at h
    by_cases hy : y.2.host ∈ att
    · rw [chooseLoop_skip hy]
      refine ih A ?_
      rwa [if_neg (by simp [hy])] at h
    · rw [chooseLoop_setB hy]
      exact chooseLoop_both_stay att t A y

/-- With two eligible elements, both slots end up filled. -/
theorem chooseLoop_two_fill (att : List String) :
    ∀ l : List (Nat × Backend),
      2 ≤ (l.filter (fun p => decide (p.2.host ∉ att))).length →
      ∃ p q, chooseLoop att l none none = (some p, some q) := by
  intro l
  induction l with
  | nil => intro h; simp at h
  | cons y t ih =>
    intro h
    rw [List.filter_cons] at h
    by_cases hy : y.2.host ∈ att
    · rw [chooseLoop_skip hy]
      refine ih ?_
      rwa [if_neg (by simp [hy])] at h
    · rw [chooseLoop_setA hy]
      refine chooseLoop_second_fills att t y ?_
      rw [if_pos (decide_eq_true hy)] at h
      rw [List.length_cons] at h
      omega

/-! ## C10 -/

/-- C10: over a pool of pairwise-distinct records, with exactly one backend
eligible (host not excluded) the selector returns it as `first` with
`second` absent, and with at least two eligible backends both slots are
returned and hold two distinct records. -/
theorem choose_slots_spec (bs : List Backend) (att : List String)
    (hpw : bs.Pairwise (· ≠ ·)) :
    (∀ x, bs.filter (fun b => decide (b.host ∉ att)) = [x] →
        chooseBackends bs att = (some x, none)) ∧
    (2 ≤ (bs.filter (fun b => decide (b.host ∉ att))).length →
        ∃ A B, chooseBackends bs att = (some A, some B) ∧ A ≠ B) := by
  constructor
  · intro x hx
    have hfil := enumFrom_filter_snd (fun b => decide (b.host ∉ att)) bs 0
    rw [hx] at hfil
    obtain ⟨px, hpx, hpx2⟩ :
        ∃ px, (List.enumFrom 0 bs).filter (fun p => decide (p.2.host ∉ att)) = [px] ∧
          px.2 = x := by
      rcases hfe : (List.enumFrom 0 bs).filter (fun p => decide (p.2.host ∉ att)) with
        _ | ⟨p, ps⟩
      · rw [hfe] at hfil; simp at hfil
      · rw [hfe, List.map_cons] at hfil
        obtain ⟨h1, h2⟩ := List.cons_eq_cons.1 hfil
        have hps : ps = [] := List.map_eq_nil_iff.1 h2
        subst hps
        exact ⟨p, hfe, h1⟩
    have := chooseLoop_singleton att bs.enum px hpx
    unfold chooseBackends chooseBackendsIdx
    rw [this]
    simp [hpx2]
  · intro h2
    have hlen : 2 ≤ ((List.enumFrom 0 bs).filter (fun p => decide (p.2.host ∉ att))).length := by
      have hfil := enumFrom_filter_snd (fun b => decide (b.host ∉ att)) bs 0
      calc 2 ≤ (bs.filter (fun b => decide (b.host ∉ att))).length := h2
        _ = _ := by rw [← hfil, List.length_map]
    obtain ⟨p, q, hpq⟩ := chooseLoop_two_fill att bs.enum hlen
    have hidx : chooseBackendsIdx bs att = (some p, some q) := hpq
    have hne : p.1 ≠ q.1 := by
      refine chooseLoop_slots_distinct att bs.enum none none
        (enumFrom_fst_nodup bs 0) (fun _ h => nomatch h) (fun _ h => nomatch h)
        (fun _ _ h => nomatch h) p q ?_ ?_ <;> rw [hpq]
    have hpmem := (chooseBackendsIdx_mem bs att).1 p (by rw [hidx])
    have hqmem := (chooseBackendsIdx_mem bs att).2 q (by rw [hidx])
    have hp' := (mem_enumFrom_facts bs 0 p hpmem).2.1
    have hq' := (mem_enumFrom_facts bs 0 q hqmem).2.1
    rw [Nat.sub_zero] at hp' hq'
    refine ⟨p.2, q.2, ?_, ?_⟩
    · unfold chooseBackends
      rw [hidx]
      simp
    · exact pairwise_ne_of_getElem bs hpw hp' hq' hne

/-- Witness for C10: a two-backend pool with one excluded yields the single
eligible backend alone; with none excluded both distinct records fill the
slots. -/
theorem choose_slots_spec_witness :
    chooseBackends [healthyB "a", healthyB "b"] ["a"] = (some (healthyB "b"), none) ∧
    ∃ A B, chooseBackends [healthyB "x", healthyB "y"] [] = (some A, some B) ∧ A ≠ B :=
  ⟨(choose_slots_spec [healthyB "a", healthyB "b"] ["a"] (by decide)).1
      (healthyB "b") (by decide),
   (choose_slots_spec [healthyB "x", healthyB "y"] [] (by decide)).2 (by decide)⟩

/-! ## C8 -/

/-- C8 counterexample: in the pool `[healthy h1, healthy h2, unhealthy u]`
(equal request counts, the two healthy backends strictly healthier than
`u`), the selector returns the poor-scoring `u` in its second slot even
though two better-scoring alternatives exist: the second-slot comparator
(`b.requestCount <= backendB.requestCount || ...`) ignores health. -/
theorem choose_second_slot_counterexample :
    chooseBackends [healthyB "h1", healthyB "h2", unhealthyB "u"] [] =
      (some (healthyB "h1"), some (unhealthyB "u")) ∧
    (unhealthyB "u").healthScore < (healthyB "h1").healthScore ∧
    (unhealthyB "u").healthScore < (healthyB "h2").healthScore ∧
    unhealthyB "u" ≠ healthyB "h1" ∧ unhealthyB "u" ≠ healthyB "h2" := by
  decide

/-- The slot shapes reachable while scanning only low-health backends of
equal request count: empty slots, one low slot, or two low slots. -/
def lowSlots (m : ℚ) (c : Nat) (a b : Option (Nat × Backend)) : Prop :=
  (a = none ∧ b = none) ∨
  (∃ p, (p.2.healthScore < m ∧ p.2.requestCount = c) ∧ a = some p ∧ b = none) ∨
  (∃ p q, (p.2.healthScore < m ∧ p.2.requestCount = c) ∧
    (q.2.healthScore < m ∧ q.2.requestCount = c) ∧ a = some p ∧ b = some q)

theorem chooseLoop_lows_shape (m : ℚ) (c : Nat) :
    ∀ (l : List (Nat × Backend)) (a b : Option (Nat × Backend)),
      (∀ p ∈ l, p.2.healthScore < m ∧ p.2.requestCount = c) →
      lowSlots m c a b →
      lowSlots m c (chooseLoop [] l a b).1 (chooseLoop [] l a b).2 := by
  intro l
  induction l with
  | nil => intro a b _ hs; exact hs
  | cons x t ih =>
    intro a b hl hs
    have hx : x.2.host ∉ ([] : List String) := List.not_mem_nil _
    have hlx := hl x (List.mem_cons_self _ _)
    have hl' : ∀ p ∈ t, p.2.healthScore < m ∧ p.2.requestCount = c :=
      fun p hp => hl p (List.mem_cons_of_mem _ hp)
    rcases hs with ⟨ha, hb⟩ | ⟨p, hp, ha, hb⟩ | ⟨p, q, hp, hq, ha, hb⟩
    · subst ha; subst hb
      rw [chooseLoop_setA hx]
      exact ih (some x) none hl' (Or.inr (Or.inl ⟨x, hlx, rfl, rfl⟩))
    · subst ha; subst hb
      rw [chooseLoop_setB hx]
      exact ih (some p) (some x) hl' (Or.inr (Or.inr ⟨p, x, hp, hlx, rfl, rfl⟩))
    · subst ha; subst hb
      by_cases h1 : x.2.healthScore > p.2.healthScore ∨
          (x.2.healthScore = p.2.healthScore ∧ x.2.requestCount < p.2.requestCount)
      · rw [chooseLoop_replA hx h1]
        exact ih (some x) (some q) hl' (Or.inr (Or.inr ⟨x, q, hlx, hq, rfl, rfl⟩))
      · by_cases h2 : x.2.requestCount ≤ q.2.requestCount ∨
            (x.2.healthScore = q.2.healthScore ∧ x.2.requestCount < q.2.requestCount)
        · rw [chooseLoop_replB hx h1 h2]
          exact ih (some p) (some x) hl' (Or.inr (Or.inr ⟨p, x, hp, hlx, rfl, rfl⟩))
        · rw [chooseLoop_keep hx h1 h2]
          exact ih (some p) (some q) hl' (Or.inr (Or.inr ⟨p, q, hp, hq, rfl, rfl⟩))

/-- Scanning elements that all share the top score `m` and request count `c`
from a state whose first slot already holds such an element keeps the first
slot and only rotates the second among those elements. -/
theorem chooseLoop_high_run (m : ℚ) (c : Nat) :
    ∀ (l : List (Nat × Backend)) (A B : Nat × Backend),
      A.2.healthScore = m → A.2.requestCount = c → B.2.requestCount = c →
      (∀ p ∈ l, p.2.healthScore = m ∧ p.2.requestCount = c) →
      ∃ B2, chooseLoop [] l (some A) (some B) = (some A, some B2) ∧
        (B2 = B ∨ B2 ∈ l) := by
  intro l
  induction l with
  | nil => intro A B _ _ _ _; exact ⟨B, rfl, Or.inl rfl⟩
  | cons x t ih =>
    intro A B hA hAc hBc hl
    have hx : x.2.host ∉ ([] : List String) := List.not_mem_nil _
    obtain ⟨hxm, hxc⟩ := hl x (List.mem_cons_self _ _)
    have h1 : ¬ (x.2.healthScore > A.2.healthScore ∨
        (x.2.healthScore = A.2.healthScore ∧ x.2.requestCount < A.2.requestCount)) := by
      rw [hxm, hA, hxc, hAc]
      simp
    have h2 : x.2.requestCount ≤ B.2.requestCount ∨
        (x.2.healthScore = B.2.healthScore ∧ x.2.requestCount < B.2.requestCount) :=
      Or.inl (by rw [hxc, hBc])
    rw [chooseLoop_replB hx h1 h2]
    obtain ⟨B2, hres, hmem⟩ := ih A x hA hAc hxc
      (fun p hp => hl p (List.mem_cons_of_mem _ hp))
    refine ⟨B2, hres, ?_⟩
    rcases hmem with h | h
    · exact Or.inr (h ▸ List.mem_cons_self _ _)
    · exact Or.inr (List.mem_cons_of_mem _ h)

theorem enumFrom_append (l1 l2 : List Backend) :
    ∀ n, List.enumFrom n (l1 ++ l2) =
      List.enumFrom n l1 ++ List.enumFrom (n + l1.length) l2 := by
  induction l1 with
  | nil => intro n; simp [List.enumFrom]
  | cons x t ih =>
    intro n
    show (n, x) :: List.enumFrom (n + 1) (t ++ l2) = _
    rw [ih (n + 1)]
    have h : n + 1 + t.length = n + (x :: t).length := by
      rw [List.length_cons]; omega
    rw [h]
    show _ = ((n, x) :: List.enumFrom (n + 1) t) ++ List.enumFrom (n + (x :: t).length) l2
    rw [List.cons_append]

/-- C8 amended: when the pool consists of low-health backends followed by at
least two backends sharing a common `healthScore` strictly above every
low one's, with all request counts equal and nothing excluded, both
selector slots hold high-health backends.  (As the counterexample shows,
dropping the ordering or the shared-top-score condition lets a low-health
backend into the second slot.) -/
theorem choose_lows_then_highs (L H : List Backend) (m : ℚ) (c : Nat)
    (hL : ∀ b ∈ L, b.healthScore < m ∧ b.requestCount = c)
    (hH : ∀ b ∈ H, b.healthScore = m ∧ b.requestCount = c)
    (hlen : 2 ≤ H.length) :
    ∃ A B, chooseBackends (L ++ H) [] = (some A, some B) ∧ A ∈ H ∧ B ∈ H := by
  rcases H with _ | ⟨h1, H'⟩
  · simp at hlen
  rcases H' with _ | ⟨h2, t⟩
  · simp at hlen
  have hh1 := hH h1 (List.mem_cons_self _ _)
  have hh2 := hH h2 (List.mem_cons_of_mem _ (List.mem_cons_self _ _))
  have ht : ∀ b ∈ t, b.healthScore = m ∧ b.requestCount = c :=
    fun b hb => hH b (List.mem_cons_of_mem _ (List.mem_cons_of_mem _ hb))
  -- decompose the enumeration into the low prefix and the high suffix
  have henum : (L ++ (h1 :: h2 :: t)).enum =
      List.enumFrom 0 L ++
        ((L.length, h1) :: (L.length + 1, h2) :: List.enumFrom (L.length + 2) t) := by
    show List.enumFrom 0 (L ++ (h1 :: h2 :: t)) = _
    rw [enumFrom_append L (h1 :: h2 :: t) 0, Nat.zero_add]
    rfl
  have hloweL : ∀ p ∈ List.enumFrom 0 L,
      p.2.healthScore < m ∧ p.2.requestCount = c :=
    fun p hp => hL p.2 (mem_enumFrom_facts L 0 p hp).2.2
  have htT : ∀ p ∈ List.enumFrom (L.length + 2) t,
      p.2.healthScore = m ∧ p.2.requestCount = c :=
    fun p hp => ht p.2 (mem_enumFrom_facts t (L.length + 2) p hp).2.2
  have hx1 : (L.length, h1).2.host ∉ ([] : List String) := List.not_mem_nil _
  have hx2 : (L.length + 1, h2).2.host ∉ ([] : List String) := List.not_mem_nil _
  have hshape := chooseLoop_lows_shape m c (List.enumFrom 0 L) none none hloweL
    (Or.inl ⟨rfl, rfl⟩)
  -- run the scan: low prefix first, then the two highs, then the rest
  have hsplit := chooseLoop_append ([] : List String) (List.enumFrom 0 L)
    ((L.length, h1) :: (L.length + 1, h2) :: List.enumFrom (L.length + 2) t) none none
  set s := chooseLoop [] (List.enumFrom 0 L) none none with hs
  obtain ⟨pA, pB, hrun, hAH, hBH⟩ :
      ∃ pA pB, chooseLoop []
          ((L.length, h1) :: (L.length + 1, h2) :: List.enumFrom (L.length + 2) t)
          s.1 s.2 = (some pA, some pB) ∧ pA.2 ∈ h1 :: h2 :: t ∧ pB.2 ∈ h1 :: h2 :: t := by
    rcases hshape with ⟨ha, hb⟩ | ⟨pl, hpl, ha, hb⟩ | ⟨pl, ql, hpl, hql, ha, hb⟩
    · rw [ha, hb, chooseLoop_setA hx1, chooseLoop_setB hx2]
      obtain ⟨B2, hres, hmem⟩ := chooseLoop_high_run m c
        (List.enumFrom (L.length + 2) t) (L.length, h1) (L.length + 1, h2)
        hh1.1 hh1.2 hh2.2 htT
      refine ⟨(L.length, h1), B2, hres, List.mem_cons_self _ _, ?_⟩
      rcases hmem with h | h
      · rw [h]; exact List.mem_cons_of_mem _ (List.mem_cons_self _ _)
      · exact List.mem_cons_of_mem _ (List.mem_cons_of_mem _
          (mem_enumFrom_facts t (L.length + 2) B2 h).2.2)
    · rw [ha, hb, chooseLoop_setB hx1]
      have hrepl : (L.length + 1, h2).2.healthScore > pl.2.healthScore ∨
          ((L.length + 1, h2).2.healthScore = pl.2.healthScore ∧
            (L.length + 1, h2).2.requestCount < pl.2.requestCount) :=
        Or.inl (by rw [hh2.1]; exact hpl.1)
      rw [chooseLoop_replA hx2 hrepl]
      obtain ⟨B2, hres, hmem⟩ := chooseLoop_high_run m c
        (List.enumFrom (L.length + 2) t) (L.length + 1, h2) (L.length, h1)
        hh2.1 hh2.2 hh1.2 htT
      refine ⟨(L.length + 1, h2), B2, hres,
        List.mem_cons_of_mem _ (List.mem_cons_self _ _), ?_⟩
      rcases hmem with h | h
      · rw [h]; exact List.mem_cons_self _ _
      · exact List.mem_cons_of_mem _ (List.mem_cons_of_mem _
          (mem_enumFrom_facts t (L.length + 2) B2 h).2.2)
    · rw [ha, hb]
      have hrepl1 : (L.length, h1).2.healthScore > pl.2.healthScore ∨
          ((L.length, h1).2.healthScore = pl.2.healthScore ∧
            (L.length, h1).2.requestCount < pl.2.requestCount) :=
        Or.inl (by rw [hh1.1]; exact hpl.1)
      rw [chooseLoop_replA hx1 hrepl1]
      have hn1 : ¬ ((L.length + 1, h2).2.healthScore > (L.length, h1).2.healthScore ∨
          ((L.length + 1, h2).2.healthScore = (L.length, h1).2.healthScore ∧
            (L.length + 1, h2).2.requestCount < (L.length, h1).2.requestCount)) := by
      -- placeholder
        rw [show (L.length + 1, h2).2 = h2 from rfl, show (L.length, h1).2 = h1 from rfl,
          hh2.1, hh1.1, hh2.2, hh1.2]
        simp
      have h2le : (L.length + 1, h2).2.requestCount ≤ ql.2.requestCount ∨
          ((L.length + 1, h2).2.healthScore = ql.2.healthScore ∧
            (L.length + 1, h2).2.requestCount < ql.2.requestCount) :=
        Or.inl (by rw [show (L.length + 1, h2).2 = h2 from rfl, hh2.2, hql.2])
      rw [chooseLoop_replB hx2 hn1 h2le]
      obtain ⟨B2, hres, hmem⟩ := chooseLoop_high_run m c
        (List.enumFrom (L.length + 2) t) (L.length, h1) (L.length + 1, h2)
        hh1.1 hh1.2 hh2.2 htT
      refine ⟨(L.length, h1), B2, hres, List.mem_cons_self _ _, ?_⟩
      rcases hmem with h | h
      · rw [h]; exact List.mem_cons_of_mem _ (List.mem_cons_self _ _)
      · exact List.mem_cons_of_mem _ (List.mem_cons_of_mem _
          (mem_enumFrom_facts t (L.length + 2) B2 h).2.2)
  refine ⟨pA.2, pB.2, ?_, hAH, hBH⟩
  have hidx : chooseBackendsIdx (L ++ (h1 :: h2 :: t)) [] = (some pA, some pB) := by
    unfold chooseBackendsIdx
    rw [henum, hsplit, hrun]
  unfold chooseBackends
  rw [hidx]
  simp

/-- Witness for the amended C8: three unhealthy backends followed by two
healthy ones, all request counts 0. -/
theorem choose_lows_then_highs_witness :
    ∃ A B, chooseBackends
        ([unhealthyB "u1", unhealthyB "u2", unhealthyB "u3"] ++
          [healthyB "h1", healthyB "h2"]) [] = (some A, some B) ∧
      A ∈ [healthyB "h1", healthyB "h2"] ∧ B ∈ [healthyB "h1", healthyB "h2"] :=
  choose_lows_then_highs [unhealthyB "u1", unhealthyB "u2", unhealthyB "u3"]
    [healthyB "h1", healthyB "h2"] 1 0
    (by decide) (by decide) (by decide)

/-! ## Dispatch-loop lemmas -/

theorem canRetry_eq_true (req : Request) (resp : Response) :
    canRetry req resp = true ↔
      ¬ resp.status < 500 ∧ (req.method = "GET" ∨ req.method = "HEAD") := by
  unfold canRetry
  split_ifs with h1 h2 <;> simp_all

/-- The return/retry decision of one attempt, as a function of the response. -/
theorem processBackend_snd (now : Nat) (req : Request) (b : Backend) (resp : Response) :
    (processBackend now req b (.ok resp)).2 =
      if 500 ≤ resp.status ∧ resp.status < 600 then
        (if canRetry req resp then none else some resp)
      else some resp := by
  simp only [processBackend]
  split_ifs <;> rfl

/-- With the guard false (every backend attempted), the loop body falls
through to `return proxyError`. -/
theorem loopBody_exhausted (env : Env) (req : Request) (iter : Nat)
    (backends : List Backend) (attempted : List String)
    (h : ¬ attempted.length < backends.length) :
    loopBody env req iter backends attempted = .done proxyError backends none := by
  unfold loopBody
  rw [if_neg h]

/-- With no candidate, the loop body returns the fixed
`"No backend available"` 502. -/
theorem loopBody_no_candidate (env : Env) (req : Request) (iter : Nat)
    (backends : List Backend) (attempted : List String)
    (ob : Option (Nat × Backend))
    (hguard : attempted.length < backends.length)
    (hchoose : chooseBackendsIdx backends attempted = (none, ob)) :
    loopBody env req iter backends attempted =
      .done { status := 502, body := "No backend available" } backends none := by
  unfold loopBody
  rw [if_pos hguard, hchoose]

/-- With a candidate, the loop body is determined by the chosen backend and
the processed attempt. -/
theorem loopBody_eq (env : Env) (req : Request) (iter : Nat)
    (backends : List Backend) (attempted : List String)
    (p : Nat × Backend) (ob : Option (Nat × Backend))
    (c : Nat × Backend) (pr : Backend × Option Response)
    (hguard : attempted.length < backends.length)
    (hchoose : chooseBackendsIdx backends attempted = (some p, ob))
    (hc : c = pickChosen (env.rand iter) p ob)
    (hpr : pr = processBackend (env.now iter) req c.2 (env.transport iter c.2.host)) :
    loopBody env req iter backends attempted =
      match pr.2 with
      | some resp => Step.done resp (backends.set c.1 pr.1) (some c.2.host)
      | none => Step.retry (backends.set c.1 pr.1)
          (addAttempted attempted c.2.host) c.2.host := by
  subst hc
  subst hpr
  unfold loopBody
  rw [if_pos hguard, hchoose]

/-- Whatever backend the dispatch loop picks was not yet attempted. -/
theorem pickChosen_not_attempted (backends : List Backend) (attempted : List String)
    (r : Bool) (p : Nat × Backend) (ob : Option (Nat × Backend))
    (hchoose : chooseBackendsIdx backends attempted = (some p, ob)) :
    (pickChosen r p ob).2.host ∉ attempted := by
  rcases ob with _ | q
  · exact (chooseBackendsIdx_not_attempted backends attempted).1 p (by rw [hchoose])
  · show (if r then p else q).2.host ∉ attempted
    rcases r with _ | _
    · simp only [if_neg Bool.false_ne_true]
      exact (chooseBackendsIdx_not_attempted backends attempted).2 q (by rw [hchoose])
    · simp only [if_pos rfl]
      exact (chooseBackendsIdx_not_attempted backends attempted).1 p (by rw [hchoose])

/-- Inversion of a retry step: the guard held, the pool size is unchanged,
and the invoked host is fresh and appended to the attempted set. -/
theorem loopBody_retry_inv (env : Env) (req : Request) (iter : Nat)
    (backends : List Backend) (attempted : List String)
    (bs2 : List Backend) (att2 : List String) (h : String)
    (hr : loopBody env req iter backends attempted = .retry bs2 att2 h) :
    attempted.length < backends.length ∧ bs2.length = backends.length ∧
    h ∉ attempted ∧ att2 = attempted ++ [h] := by
  by_cases hguard : attempted.length < backends.length
  · rcases hch : chooseBackendsIdx backends attempted with ⟨a, ob⟩
    rcases a with _ | p
    · rw [loopBody_no_candidate env req iter backends attempted ob hguard hch] at hr
      exact nomatch hr
    · have hlb := loopBody_eq env req iter backends attempted p ob
        (pickChosen (env.rand iter) p ob)
        (processBackend (env.now iter) req (pickChosen (env.rand iter) p ob).2
          (env.transport iter (pickChosen (env.rand iter) p ob).2.host))
        hguard hch rfl rfl
      rw [hlb] at hr
      rcases hpr2 : (processBackend (env.now iter) req (pickChosen (env.rand iter) p ob).2
          (env.transport iter (pickChosen (env.rand iter) p ob).2.host)).2 with _ | resp
      · rw [hpr2] at hr
        simp only [] at hr
        obtain ⟨h1, h2, h3⟩ := Step.retry.inj hr
        have hna := pickChosen_not_attempted backends attempted (env.rand iter) p ob hch
        subst h3
        refine ⟨hguard, ?_, hna, ?_⟩
        · rw [← h1, List.length_set]
        · rw [← h2]
          unfold addAttempted
          rw [if_neg hna]
      · rw [hpr2] at hr
        exact nomatch hr
  · rw [loopBody_exhausted env req iter backends attempted hguard] at hr
    exact nomatch hr

/-- Inversion of a finishing step that invoked a transport: the invoked host
is fresh. -/
theorem loopBody_done_inv (env : Env) (req : Request) (iter : Nat)
    (backends : List Backend) (attempted : List String)
    (resp : Response) (bs2 : List Backend) (h : String)
    (hr : loopBody env req iter backends attempted = .done resp bs2 (some h)) :
    h ∉ attempted := by
  by_cases hguard : attempted.length < backends.length
  · rcases hch : chooseBackendsIdx backends attempted with ⟨a, ob⟩
    rcases a with _ | p
    · rw [loopBody_no_candidate env req iter backends attempted ob hguard hch] at hr
      obtain ⟨_, _, h3⟩ := Step.done.inj hr
      exact nomatch h3
    · have hlb := loopBody_eq env req iter backends attempted p ob
        (pickChosen (env.rand iter) p ob)
        (processBackend (env.now iter) req (pickChosen (env.rand iter) p ob).2
          (env.transport iter (pickChosen (env.rand iter) p ob).2.host))
        hguard hch rfl rfl
      rw [hlb] at hr
      rcases hpr2 : (processBackend (env.now iter) req (pickChosen (env.rand iter) p ob).2
          (env.transport iter (pickChosen (env.rand iter) p ob).2.host)).2 with _ | r2
      · rw [hpr2] at hr
        exact nomatch hr
      · rw [hpr2] at hr
        simp only [] at hr
        obtain ⟨_, _, h3⟩ := Step.done.inj hr
        have hna := pickChosen_not_attempted backends attempted (env.rand iter) p ob hch
        rw [Option.some.inj h3] at hna
        exact hna
  · rw [loopBody_exhausted env req iter backends attempted hguard] at hr
    obtain ⟨_, _, h3⟩ := Step.done.inj hr
    exact nomatch h3

/-- Enough fuel: the loop always returns. -/
theorem dispatchLoop_isSome (env : Env) (req : Request) :
    ∀ (fuel iter : Nat) (bs : List Backend) (att inv : List String),
      bs.length - att.length < fuel →
      (dispatchLoop env req fuel iter bs att inv).isSome = true := by
  intro fuel
  induction fuel with
  | zero => intro iter bs att inv h; omega
  | succ fuel ih =>
    intro iter bs att inv h
    rcases hlb : loopBody env req iter bs att with ⟨resp, bs2, invH⟩ | ⟨bs2, att2, hh⟩
    · unfold dispatchLoop
      rw [hlb]
      rfl
    · obtain ⟨hguard, hlen, hfresh, happ⟩ :=
        loopBody_retry_inv env req iter bs att bs2 att2 hh hlb
      unfold dispatchLoop
      rw [hlb]
      refine ih (iter + 1) bs2 att2 (inv ++ [hh]) ?_
      rw [hlen, happ, List.length_append]
      simp only [List.length_cons, List.length_nil]
      omega

/-- The invoked hosts stay pairwise distinct (each within the attempted
set, which only receives fresh hosts). -/
theorem dispatchLoop_nodup (env : Env) (req : Request) :
    ∀ (fuel iter : Nat) (bs : List Backend) (att inv : List String)
      (out : Response × List Backend × List String),
      inv.Nodup → (∀ x ∈ inv, x ∈ att) →
      dispatchLoop env req fuel iter bs att inv = some out →
      out.2.2.Nodup := by
  intro fuel
  induction fuel with
  | zero => intro iter bs att inv out _ _ h; exact nomatch h
  | succ fuel ih =>
    intro iter bs att inv out hnd hsub hrun
    rcases hlb : loopBody env req iter bs att with ⟨resp, bs2, invH⟩ | ⟨bs2, att2, hh⟩
    · unfold dispatchLoop at hrun
      rw [hlb] at hrun
      have hout : out = (resp, bs2, inv ++ invH.toList) := (Option.some.inj hrun).symm
      subst hout
      rcases invH with _ | hst
      · simp only [Option.toList, List.append_nil]
        exact hnd
      · have hfresh : hst ∉ att := loopBody_done_inv env req iter bs att resp bs2 hst hlb
        simp only [Option.toList]
        rw [List.nodup_append]
        refine ⟨hnd, List.nodup_singleton _, ?_⟩
        intro x hx hx1
        rw [List.mem_singleton] at hx1
        subst hx1
        exact hfresh (hsub x hx)
    · obtain ⟨hguard, hlen, hfresh, happ⟩ :=
        loopBody_retry_inv env req iter bs att bs2 att2 hh hlb
      unfold dispatchLoop at hrun
      rw [hlb] at hrun
      have hnd2 : (inv ++ [hh]).Nodup := by
        rw [List.nodup_append]
        refine ⟨hnd, List.nodup_singleton _, ?_⟩
        intro x hx hx1
        rw [List.mem_singleton] at hx1
        subst hx1
        exact hfresh (hsub x hx)
      have hsub2 : ∀ x ∈ inv ++ [hh], x ∈ att2 := by
        intro x hx
        rw [happ]
        rcases List.mem_append.1 hx with h | h
        · exact List.mem_append.2 (Or.inl (hsub x h))
        · exact List.mem_append.2 (Or.inr h)
      exact ih (iter + 1) bs2 att2 (inv ++ [hh]) out hnd2 hsub2 hrun

/-! ## C1 -/

/-- C1: in an iteration that obtains a response from the transport, the loop
retries — continuing with the failing backend's host excluded — exactly when
the response status is in `[500,600)` and the method is GET or HEAD; such a
5xx response is never itself the result of the step; every response with
status below 500, and every 5xx response to a non-GET/HEAD request, is
returned immediately and unchanged. -/
theorem retry_decision (env : Env) (req : Request) (iter : Nat)
    (backends : List Backend) (attempted : List String)
    (p : Nat × Backend) (ob : Option (Nat × Backend))
    (c : Nat × Backend) (resp : Response)
    (hguard : attempted.length < backends.length)
    (hchoose : chooseBackendsIdx backends attempted = (some p, ob))
    (hc : c = pickChosen (env.rand iter) p ob)
    (hresp : env.transport iter c.2.host = .ok resp) :
    (∀ bs att h, loopBody env req iter backends attempted = .retry bs att h →
        (500 ≤ resp.status ∧ resp.status < 600) ∧
        (req.method = "GET" ∨ req.method = "HEAD")) ∧
    ((500 ≤ resp.status ∧ resp.status < 600) →
      (req.method = "GET" ∨ req.method = "HEAD") →
        loopBody env req iter backends attempted =
          .retry (backends.set c.1
              (processBackend (env.now iter) req c.2 (.ok resp)).1)
            (addAttempted attempted c.2.host) c.2.host ∧
        ∀ bs inv, loopBody env req iter backends attempted ≠ .done resp bs inv) ∧
    (resp.status < 500 →
        loopBody env req iter backends attempted =
          .done resp (backends.set c.1
              (processBackend (env.now iter) req c.2 (.ok resp)).1)
            (some c.2.host)) ∧
    ((500 ≤ resp.status ∧ resp.status < 600) →
      ¬ (req.method = "GET" ∨ req.method = "HEAD") →
        loopBody env req iter backends attempted =
          .done resp (backends.set c.1
              (processBackend (env.now iter) req c.2 (.ok resp)).1)
            (some c.2.host)) := by
  have hlb := loopBody_eq env req iter backends attempted p ob c
    (processBackend (env.now iter) req c.2 (env.transport iter c.2.host))
    hguard hchoose hc rfl
  rw [hresp] at hlb
  have hsnd := processBackend_snd (env.now iter) req c.2 resp
  refine ⟨?_, ?_, ?_, ?_⟩
  · intro bs att h hr
    by_cases h5 : 500 ≤ resp.status ∧ resp.status < 600
    · by_cases hm : req.method = "GET" ∨ req.method = "HEAD"
      · exact ⟨h5, hm⟩
      · have hcr : canRetry req resp = false := by
          rw [← Bool.not_eq_true, canRetry_eq_true]
          intro hct
          exact hm hct.2
        rw [if_pos h5, hcr, if_neg (by simp)] at hsnd
        rw [hsnd] at hlb
        simp only [] at hlb
        rw [hlb] at hr
        exact nomatch hr
    · rw [if_neg h5] at hsnd
      rw [hsnd] at hlb
      simp only [] at hlb
      rw [hlb] at hr
      exact nomatch hr
  · intro h5 hm
    have hcr : canRetry req resp = true :=
      (canRetry_eq_true req resp).2 ⟨by omega, hm⟩
    rw [if_pos h5, hcr, if_pos rfl] at hsnd
    rw [hsnd] at hlb
    simp only [] at hlb
    refine ⟨hlb, ?_⟩
    intro bs inv heq
    rw [hlb] at heq
    exact nomatch heq
  · intro hlt
    have h5 : ¬ (500 ≤ resp.status ∧ resp.status < 600) := by omega
    rw [if_neg h5] at hsnd
    rw [hsnd] at hlb
    simp only [] at hlb
    exact hlb
  · intro h5 hm
    have hcr : canRetry req resp = false := by
      rw [← Bool.not_eq_true, canRetry_eq_true]
      intro hct
      exact hm hct.2
    rw [if_pos h5, hcr, if_neg (by simp)] at hsnd
    rw [hsnd] at hlb
    simp only [] at hlb
    exact hlb

/-- Witness for C1: a single-backend pool whose transport returns a 500 to a
GET — the step retries with the host excluded. -/
theorem retry_decision_witness :
    loopBody env500 reqGET 0 [mkBackend "b"] [] =
      Step.retry ([mkBackend "b"].set 0
          (processBackend 0 reqGET (mkBackend "b")
            (TransportResult.ok { status := 500, body := "err" })).1)
        (addAttempted [] "b") "b" :=
  ((retry_decision env500 reqGET 0 [mkBackend "b"] [] (0, mkBackend "b") none
      (0, mkBackend "b") { status := 500, body := "err" }
      (by decide) (by decide) rfl rfl).2.1 (by decide) (Or.inl rfl)).1

/-! ## C2 -/

/-- C2: a thrown/rejected transport call is handled exactly as if the
backend had returned the synthetic `proxyError` response itself (status
502, body indicating inability to connect to the origin): the 502 is
recorded into the incremented backend's history, `lastError` is set to
now, the health score is recomputed from that updated state, and the step
yields either a retry or the synthetic response — never an exception
(every branch of the model is a total value). -/
theorem thrown_transport_as_synthetic_502 (now : Nat) (req : Request) (b : Backend) :
    processBackend now req b .thrown = processBackend now req b (.ok proxyError) ∧
    proxyError.status = 502 ∧ proxyError.body = "couldn't connect to origin" ∧
    (processBackend now req b .thrown).1.statuses =
      (record { b with requestCount := b.requestCount + 1 } 502).statuses ∧
    (processBackend now req b .thrown).1.lastError = now ∧
    (processBackend now req b .thrown).1.healthScore =
      score { record { b with requestCount := b.requestCount + 1 } 502 with
        lastError := now } now ∧
    ((processBackend now req b .thrown).2 = none ∨
      (processBackend now req b .thrown).2 = some proxyError) := by
  refine ⟨rfl, rfl, rfl, rfl, rfl, rfl, ?_⟩
  cases hcr : canRetry req proxyError with
  | true =>
    left
    simp only [processBackend]
    rw [if_pos (by decide : 500 ≤ proxyError.status ∧ proxyError.status < 600)]
    simp [hcr]
  | false =>
    right
    simp only [processBackend]
    rw [if_pos (by decide : 500 ≤ proxyError.status ∧ proxyError.status < 600)]
    simp [hcr]

/-! ## C3 -/

/-- C3 counterexample: a single-backend pool whose transport always returns
500 to a GET.  The pool is exhausted after one attempt and dispatch returns
`proxyError` — status 502 but with the transport-failure body
"couldn't connect to origin", not a body indicating that no backend was
available (the code's `"No backend available"` response is produced on a
different path). -/
theorem exhaustion_body_counterexample :
    fetchBalancer env500 reqGET [mkBackend "b"] =
      some (proxyError,
        [{ host := "b", requestCount := 1,
           statuses := [none, some 500, none, none, none, none, none, none, none, none],
           lastError := 0, healthScore := 9/10, errorCount := 0 }],
        ["b"]) ∧
    proxyError.body = "couldn't connect to origin" ∧
    proxyError.body ≠ "No backend available" ∧
    proxyError.status = 502 := by
  refine ⟨by decide, rfl, by decide, rfl⟩

/-- C3 amended: once every backend has been attempted (the loop guard
fails), dispatch returns — as a response, never an exception — the fixed
`proxyError`: status 502 with body indicating inability to connect to the
origin.  The 502 whose body indicates that no backend was available is
returned only on the other failure path, when the selector finds no
eligible candidate while unattempted records remain. -/
theorem exhaustion_returns_proxyError :
    (∀ (env : Env) (req : Request) (iter : Nat) (bs : List Backend)
        (att : List String), bs.length ≤ att.length →
        loopBody env req iter bs att = .done proxyError bs none) ∧
    (∀ (env : Env) (req : Request) (fuel iter : Nat) (bs : List Backend)
        (att inv : List String), bs.length ≤ att.length →
        dispatchLoop env req (fuel + 1) iter bs att inv = some (proxyError, bs, inv)) ∧
    (∀ (env : Env) (req : Request) (iter : Nat) (bs : List Backend)
        (att : List String) (ob : Option (Nat × Backend)),
        att.length < bs.length →
        chooseBackendsIdx bs att = (none, ob) →
        loopBody env req iter bs att =
          .done { status := 502, body := "No backend available" } bs none) ∧
    proxyError.status = 502 ∧ proxyError.body = "couldn't connect to origin" := by
  refine ⟨?_, ?_, ?_, rfl, rfl⟩
  · intro env req iter bs att h
    exact loopBody_exhausted env req iter bs att (by omega)
  · intro env req fuel iter bs att inv h
    unfold dispatchLoop
    rw [loopBody_exhausted env req iter bs att (by omega)]
    simp
  · intro env req iter bs att ob hguard hch
    exact loopBody_no_candidate env req iter bs att ob hguard hch

/-- Witness for the amended C3 at a concrete exhausted state. -/
theorem exhaustion_returns_proxyError_witness :
    loopBody env500 reqGET 1 [mkBackend "b"] ["b"] =
      .done proxyError [mkBackend "b"] none ∧
    dispatchLoop env500 reqGET 1 1 [mkBackend "b"] ["b"] ["b"] =
      some (proxyError, [mkBackend "b"], ["b"]) :=
  ⟨exhaustion_returns_proxyError.1 env500 reqGET 1 [mkBackend "b"] ["b"] (by decide),
   exhaustion_returns_proxyError.2.1 env500 reqGET 0 1 [mkBackend "b"] ["b"] ["b"]
     (by decide)⟩

/-! ## C4 -/

/-- C4: the selector never returns a backend whose host is in the attempted
set; every dispatch call terminates (fuel `backends.length + 1` always
suffices); the hosts invoked during one dispatch call are pairwise
distinct, so each distinct host sees at most one transport invocation per
call; and a retry step adds the invoked host — previously unattempted — to
the attempted set it continues with. -/
theorem dispatch_attempts_spec :
    (∀ (bs : List Backend) (att : List String) (p : Nat × Backend)
        (ob : Option (Nat × Backend)),
        chooseBackendsIdx bs att = (some p, ob) →
        p.2.host ∉ att ∧ ∀ q, ob = some q → q.2.host ∉ att) ∧
    (∀ (env : Env) (req : Request) (bs : List Backend),
        (fetchBalancer env req bs).isSome = true) ∧
    (∀ (env : Env) (req : Request) (bs : List Backend)
        (out : Response × List Backend × List String),
        fetchBalancer env req bs = some out → out.2.2.Nodup) ∧
    (∀ (env : Env) (req : Request) (iter : Nat) (bs : List Backend)
        (att : List String) (bs2 : List Backend) (att2 : List String) (h : String),
        loopBody env req iter bs att = .retry bs2 att2 h →
        h ∉ att ∧ att2 = att ++ [h] ∧ h ∈ att2) := by
  refine ⟨?_, ?_, ?_, ?_⟩
  · intro bs att p ob hch
    refine ⟨(chooseBackendsIdx_not_attempted bs att).1 p (by rw [hch]), ?_⟩
    intro q hq
    refine (chooseBackendsIdx_not_attempted bs att).2 q ?_
    rw [hch, hq]
  · intro env req bs
    exact dispatchLoop_isSome env req (bs.length + 1) 0 bs [] [] (by omega)
  · intro env req bs out hout
    exact dispatchLoop_nodup env req (bs.length + 1) 0 bs [] [] out
      List.nodup_nil (fun x hx => absurd hx (List.not_mem_nil x)) hout
  · intro env req iter bs att bs2 att2 h hr
    obtain ⟨_, _, hfresh, happ⟩ := loopBody_retry_inv env req iter bs att bs2 att2 h hr
    exact ⟨hfresh, happ, by rw [happ]; exact List.mem_append.2 (Or.inr (by simp))⟩

/-- Witness for C4 at concrete inputs: a fresh selector call, a completed
dispatch (terminates with pairwise-distinct invocations), and a concrete
retry step. -/
theorem dispatch_attempts_spec_witness :
    ((0, mkBackend "b").2.host ∉ ([] : List String)) ∧
    (fetchBalancer env200 reqGET [mkBackend "b"]).isSome = true ∧
    (["b"] : List String).Nodup ∧
    ("b" ∉ ([] : List String) ∧ (["b"] : List String) = [] ++ ["b"] ∧
      "b" ∈ (["b"] : List String)) := by
  refine ⟨?_, ?_, ?_, ?_⟩
  · exact (dispatch_attempts_spec.1 [mkBackend "b"] [] (0, mkBackend "b") none
      (by decide)).1
  · exact dispatch_attempts_spec.2.1 env200 reqGET [mkBackend "b"]
  · refine dispatch_attempts_spec.2.2.1 env200 reqGET [mkBackend "b"]
      ({ status := 200, body := "hi" },
        [{ host := "b", requestCount := 1,
           statuses := [none, some 200, none, none, none, none, none, none, none, none],
           lastError := 0, healthScore := 1, errorCount := 0 }],
        ["b"]) (by decide)
  · exact dispatch_attempts_spec.2.2.2 env500 reqGET 0 [mkBackend "b"] []
      [{ host := "b", requestCount := 1,
         statuses := [none, some 500, none, none, none, none, none, none, none, none],
         lastError := 0, healthScore := 9/10, errorCount := 0 }]
      ["b"] "b" (by decide)

/-! ## C9 -/

/-- C9: recording appends while the history holds fewer than 10 entries and,
once at capacity 10, overwrites the slot at `requestCount mod 10`; the
history length never grows beyond 10; and after 20 sequential dispatches of
a single always-healthy (200) backend the history has length exactly 10 and
equals the last 10 recorded statuses in order. -/
theorem record_ring_buffer :
    (∀ (b : Backend) (s : Nat), b.statuses.length < 10 →
        (record b s).statuses = b.statuses ++ [some s]) ∧
    (∀ (b : Backend) (s : Nat), b.statuses.length = 10 →
        (record b s).statuses = b.statuses.set (b.requestCount % 10) (some s) ∧
        (record b s).statuses.length = 10) ∧
    (∀ (b : Backend) (s : Nat), b.statuses.length ≤ 10 →
        (record b s).statuses.length ≤ 10) ∧
    ((runDispatches env200 reqGET 20 [mkBackend "b0"]).map Backend.statuses =
        [((List.replicate 20 200).drop 10).map some] ∧
      ∀ bx ∈ runDispatches env200 reqGET 20 [mkBackend "b0"],
        bx.statuses.length = 10) := by
  refine ⟨?_, ?_, ?_, by decide, by decide⟩
  · intro b s h
    unfold record
    rw [if_pos h]
  · intro b s h
    unfold record
    rw [if_neg (by omega), h]
    exact ⟨rfl, by rw [List.length_set, h]⟩
  · intro b s h
    unfold record
    by_cases hlt : b.statuses.length < 10
    · rw [if_pos hlt]
      simp only [List.length_append, List.length_cons, List.length_nil]
      omega
    · rw [if_neg hlt]
      simp only [List.length_set]
      exact h

/-- Witness for C9: an append below capacity and an at-capacity overwrite at
concrete backends. -/
theorem record_ring_buffer_witness :
    (record (healthyB "w") 200).statuses = histSuccess ++ [some 200] ∧
    ((record (mkBackend "w") 500).statuses =
        (mkBackend "w").statuses.set ((mkBackend "w").requestCount % 10) (some 500) ∧
      (record (mkBackend "w") 500).statuses.length = 10) ∧
    (record (mkBackend "w") 500).statuses.length ≤ 10 :=
  ⟨record_ring_buffer.1 (healthyB "w") 200 (by decide),
   record_ring_buffer.2.1 (mkBackend "w") 500 (by decide),
   record_ring_buffer.2.2.1 (mkBackend "w") 500 (by decide)⟩
